import Mathlib

/-!
Verification of the transaction extraction pipeline and the transaction
store of the vessify backend.

The definitions below are a shallow embedding of:
  * `backend/src/lib/bedrock.js` — the AI extraction adapter
    (`extractTransactionWithBedrock`);
  * `backend/src/lib/organization.js` — the extraction orchestrator
    (`parseTransactionText`), the regex fallback parser
    (`parseTransactionTextWithRegex`) and the transaction store
    (`getTransactions`, `getTransactionById`);
  * the transaction HTTP route (`GET /api/transactions/:id`).

JavaScript numbers are modelled as `JSNum` (a rational or one of the
special values NaN / Infinity / -Infinity); untyped JavaScript values as
`JsValue`.  The external model service, the network and the JSON decoding
are modelled by `BedrockOutcome`: either some step of the call throws, or
a response arrives from which no JSON object can be extracted, or a JSON
object is extracted.  The host `new Date(...)` constructor is modelled by
explicit calendar validity for the string shapes the code constructs, and
is a parameter (`hostDate`) where the code feeds it arbitrary model
output.  JavaScript regexes are modelled by hand-written matchers with
leftmost-match scanning and greedy backtracking candidate order.
-/

/-- Model of a JavaScript number: NaN, the two infinities, or a finite
value (modelled as a rational). -/
inductive JSNum where
  | nan
  | inf
  | ninf
  | fin (q : ℚ)
deriving DecidableEq

/-- Model of an untyped JavaScript value as it can appear in a field of a
JSON-parsed object: `null`, `undefined` (absent property), a boolean, a
number, a string, or some other object value. -/
inductive JsValue where
  | vnull
  | vundef
  | vbool (b : Bool)
  | vnum (n : JSNum)
  | vstr (s : String)
  | vobj
deriving DecidableEq

/-- JavaScript truthiness of a value. -/
def JsValue.truthy : JsValue → Bool
  | .vnull => false
  | .vundef => false
  | .vbool b => b
  | .vnum .nan => false
  | .vnum (.fin q) => q != 0
  | .vnum _ => true
  | .vstr s => s != ""
  | .vobj => true

/-- `Math.abs` on a JavaScript number. -/
def jsAbs : JSNum → JSNum
  | .nan => .nan
  | .inf => .inf
  | .ninf => .inf
  | .fin q => .fin |q|

/-- Is a JavaScript number non-negative (NaN and -Infinity are not)? -/
def jsnumNonneg : JSNum → Bool
  | .nan => false
  | .inf => true
  | .ninf => false
  | .fin q => decide (0 ≤ q)

/-- The fields of the JSON object extracted from the model response, each
an arbitrary JavaScript value (`vundef` when the property is absent). -/
structure ExtractedJson where
  amount : JsValue
  date : JsValue
  description : JsValue
  category : JsValue
  confidence : JsValue
  reasoning : JsValue

/-- `substring(0, n)` on a JavaScript string. -/
def jsSubstr (s : String) (n : Nat) : String := ⟨s.data.take n⟩

/-- The sanitized result the adapter returns: `bedrock.js` lines 127-142.
`date`, `category` and `reasoning` are passed through unvalidated, so
they stay untyped `JsValue`s. -/
structure BedrockResult where
  amount : Option JSNum
  date : JsValue
  description : Option String
  category : JsValue
  confidence : ℚ
  reasoning : JsValue
deriving DecidableEq

/-- `typeof extracted.amount === 'number' && !isNaN(extracted.amount)
? Math.abs(extracted.amount) : null`. -/
def sanitizeAmount : JsValue → Option JSNum
  | .vnum .nan => none
  | .vnum n => some (jsAbs n)
  | _ => none

/-- `extracted.description ? extracted.description.substring(0, 255) :
null`.  A truthy non-string has no `substring` method, so that case
throws a `TypeError` (caught by the adapter's outer `catch`). -/
def sanitizeDescription (v : JsValue) : Except String (Option String) :=
  if v.truthy then
    match v with
    | .vstr s => .ok (some (jsSubstr s 255))
    | _ => .error "extracted.description.substring is not a function"
  else .ok none

/-- `typeof extracted.confidence === 'number' && extracted.confidence >= 0
&& extracted.confidence <= 1 ? extracted.confidence : 0.5`.  NaN and the
infinities fail the range comparison and default to `0.5`. -/
def sanitizeConfidence : JsValue → ℚ
  | .vnum (.fin q) => if 0 ≤ q ∧ q ≤ 1 then q else 1/2
  | _ => 1/2

/-- `x || null`: replace falsy values by `null`. -/
def orNull (v : JsValue) : JsValue := if v.truthy then v else .vnull

/-- Validate and sanitize the JSON object extracted from the model
response (`bedrock.js` lines 126-143). -/
def sanitizeExtracted (e : ExtractedJson) : Except String BedrockResult :=
  match sanitizeDescription e.description with
  | .error msg => .error msg
  | .ok description =>
      .ok { amount := sanitizeAmount e.amount
            date := orNull e.date
            description := description
            category := orNull e.category
            confidence := sanitizeConfidence e.confidence
            reasoning := e.reasoning }

/-- One invocation of the external Bedrock service, as observed by the
adapter's `try` block: some step before JSON extraction throws (the
carried string is the thrown error's message, `'Unknown error'` for a
thrown non-`Error`); or a textual response arrives from which none of the
three JSON extraction strategies recovers an object; or a JSON object is
extracted. -/
inductive BedrockOutcome where
  | throws (msg : String)
  | respondsUnparsable
  | respondsParsed (e : ExtractedJson)

/-- The body of the adapter's `try` block: invocation, transport
decoding, the three-stage JSON extraction
(`throw new Error('Could not extract JSON from response')` when all three
fail) and sanitization.  `Except.error` is a thrown exception. -/
def bedrockBody : BedrockOutcome → Except String BedrockResult
  | .throws msg => .error msg
  | .respondsUnparsable => .error "Could not extract JSON from response"
  | .respondsParsed e => sanitizeExtracted e

/-- The degraded result built in the adapter's `catch` block
(`bedrock.js` lines 145-156). -/
def degradedResult (msg : String) : BedrockResult :=
  { amount := none
    date := .vnull
    description := none
    category := .vnull
    confidence := 0
    reasoning := .vstr ("Extraction failed: " ++ msg) }

/-- `extractTransactionWithBedrock`: the whole `try` body with the
catch-all converting any exception into a degraded result.  The function
is total: it never propagates an exception. -/
def extractTransactionWithBedrock (o : BedrockOutcome) : BedrockResult :=
  match bedrockBody o with
  | .ok r => r
  | .error msg => degradedResult msg

/-!
Hand-written models of the JavaScript regexes of
`parseTransactionTextWithRegex` (`organization.js` lines 307-431).

A matcher candidate list holds `(consumed, rest)` pairs in the regex
engine's backtracking preference order (greedy quantifiers first);
`scanPos` implements the engine's leftmost-match position scan.
-/

/-- Candidate parses of a regex fragment: `(consumed, rest)` pairs in
backtracking preference order. -/
abbrev Parses := List Char → List (List Char × List Char)

/-- Match a single character satisfying a predicate. -/
def pChar (q : Char → Bool) : Parses := fun cs =>
  match cs with
  | [] => []
  | c :: r => if q c then [([c], r)] else []

/-- Sequential composition, preserving preference order. -/
def pSeq (a b : Parses) : Parses := fun cs =>
  (a cs).bind (fun pr => (b pr.2).map (fun qr => (pr.1 ++ qr.1, qr.2)))

/-- Greedy `?`: the present alternative is preferred. -/
def pOpt (a : Parses) : Parses := fun cs => a cs ++ [([], cs)]

/-- Exactly `n` repetitions. -/
def pCountExact (a : Parses) : Nat → Parses
  | 0 => fun cs => [([], cs)]
  | n + 1 => pSeq a (pCountExact a n)

/-- Greedy `{lo,hi}`: repetition counts tried from `hi` down to `lo`. -/
def pBetween (a : Parses) (lo hi : Nat) : Parses := fun cs =>
  ((List.range (hi + 1 - lo)).map (fun i => hi - i)).bind
    (fun k => pCountExact a k cs)

/-- Greedy `*` with fuel (each iteration must consume input). -/
def pStarFuel (a : Parses) : Nat → Parses
  | 0 => fun cs => [([], cs)]
  | n + 1 => fun cs =>
      ((a cs).bind (fun pr =>
        if pr.2.length < cs.length then
          (pStarFuel a n pr.2).map (fun qr => (pr.1 ++ qr.1, qr.2))
        else [])) ++ [([], cs)]

/-- Greedy `*`: longest iteration chains first. -/
def pStar (a : Parses) : Parses := fun cs => pStarFuel a cs.length cs

/-- The whitespace class `\s` (the JavaScript set restricted to its ASCII
members, the only ones relevant here). -/
def isWS (c : Char) : Bool :=
  c == ' ' || c == '\t' || c == '\n' || c == '\r' || c == '\x0b' || c == '\x0c'

/-- An ASCII letter (`[a-z]` under the `/i` flag, and `[A-Za-z]`). -/
def isAlpha (c : Char) : Bool :=
  ('a' ≤ c && c ≤ 'z') || ('A' ≤ c && c ≤ 'Z')

/-- Case-sensitive literal: rest of the input after the literal. -/
def litCS : List Char → List Char → Option (List Char)
  | [], cs => some cs
  | _ :: _, [] => none
  | l :: ls, c :: cs => if l == c then litCS ls cs else none

/-- Case-insensitive (ASCII) literal. -/
def litCI : List Char → List Char → Option (List Char)
  | [], cs => some cs
  | _ :: _, [] => none
  | l :: ls, c :: cs => if l.toLower == c.toLower then litCI ls cs else none

/-- Case-insensitive substring test (`/Date:/i` on a match text). -/
def containsCI (need : List Char) : List Char → Bool
  | [] => (litCI need []).isSome
  | hay@(_ :: t) => (litCI need hay).isSome || containsCI need t

/-- Case-sensitive substring test (`String.prototype.includes`). -/
def containsSub (need : List Char) : List Char → Bool
  | [] => (litCS need []).isSome
  | hay@(_ :: t) => (litCS need hay).isSome || containsSub need t

/-- Leftmost-match position scan: try the matcher at every start
position, earliest first. -/
def scanPos (f : List Char → Option α) : List Char → Option α
  | [] => f []
  | cs@(_ :: t) => (f cs) <|> scanPos f t

/-- One digit (`\d`). -/
def pDigit : Parses := pChar Char.isDigit

/-- A specific character as a fragment. -/
def pLitCh (x : Char) : Parses := pChar (fun c => c == x)

/-- Optional leading minus sign (`-?`). -/
def signOpt : Parses := pOpt (pLitCh '-')

/-- `,\d{2}` — one Indian-style two-digit group. -/
def commaD2 : Parses := pSeq (pLitCh ',') (pCountExact pDigit 2)

/-- `,\d{3}` — one three-digit group. -/
def commaD3 : Parses := pSeq (pLitCh ',') (pCountExact pDigit 3)

/-- `(?:\.\d{2})?` — optional two decimal digits. -/
def decTail : Parses := pOpt (pSeq (pLitCh '.') (pCountExact pDigit 2))

/-- The amount capture group
`-?\d{1,n}(?:,\d{2})*(?:,\d{3})*(?:\.\d{2})?` with `n` leading digits
allowed (`n = 2` for the currency patterns, `n = 3` for the rest). -/
def numGroup (n : Nat) : Parses :=
  pSeq signOpt (pSeq (pBetween pDigit 1 n)
    (pSeq (pStar commaD2) (pSeq (pStar commaD3) decTail)))

/-- The capture group of the dollar fallback pattern
`-?\d{1,3}(?:,\d{3})*(?:\.\d{2})?`. -/
def numGroupDollar : Parses :=
  pSeq signOpt (pSeq (pBetween pDigit 1 3) (pSeq (pStar commaD3) decTail))

/-- `/[₹Rs\.]\s*(-?\d{1,2}(?:,\d{2})*(?:,\d{3})*(?:\.\d{2})?)/` tried at
one position; returns the capture.  Nothing follows the group, so its
first (greediest) candidate is the regex result. -/
def amtPat1At : List Char → Option (List Char)
  | [] => none
  | c :: rest =>
      if c == '₹' || c == 'R' || c == 's' || c == '.' then
        ((numGroup 2) (rest.dropWhile isWS)).head?.map Prod.fst
      else none

/-- `/(-?\d{1,2}(?:,\d{2})*(?:,\d{3})*(?:\.\d{2})?)\s*(?:INR|Rs|₹)/i` at
one position: the group candidates are tried in backtracking order until
the currency suffix matches. -/
def amtPat2At (cs : List Char) : Option (List Char) :=
  ((numGroup 2) cs).findSome? (fun pr =>
    let r := pr.2.dropWhile isWS
    if (litCI ['i', 'n', 'r'] r).isSome || (litCI ['r', 's'] r).isSome
        || (litCS ['₹'] r).isSome then
      some pr.1
    else none)

/-- `/Amount:\s*(-?\d{1,3}(?:,\d{2})*(?:,\d{3})*(?:\.\d{2})?)/i` at one
position. -/
def amtPat3At (cs : List Char) : Option (List Char) :=
  match litCI ['a', 'm', 'o', 'u', 'n', 't', ':'] cs with
  | none => none
  | some r => ((numGroup 3) (r.dropWhile isWS)).head?.map Prod.fst

/-- `/\$\s*(-?\d{1,3}(?:,\d{3})*(?:\.\d{2})?)/` at one position. -/
def amtPat4At (cs : List Char) : Option (List Char) :=
  match litCS ['$'] cs with
  | none => none
  | some r => (numGroupDollar (r.dropWhile isWS)).head?.map Prod.fst

/-- The part of pattern 5 after `(?:^|\s)`: the capture group followed by
`(?:\s|$)`. -/
def amtPat5Core (cs : List Char) : Option (List Char) :=
  ((numGroup 3) cs).findSome? (fun pr =>
    match pr.2 with
    | [] => some pr.1
    | c :: _ => if isWS c then some pr.1 else none)

/-- `/(?:^|\s)(-?\d{1,3}(?:,\d{2})*(?:,\d{3})*(?:\.\d{2})?)(?:\s|$)/`:
the `^` alternative applies at position 0 only; otherwise a whitespace
character is consumed before the group. -/
def amtPat5Match (cs : List Char) : Option (List Char) :=
  (amtPat5Core cs) <|>
    scanPos (fun s =>
      match s with
      | c :: r => if isWS c then amtPat5Core r else none
      | [] => none) cs

/-- The `for` loop over `amountPatterns` with `break` on the first
pattern that matches anywhere in the text. -/
def amountMatch (cs : List Char) : Option (List Char) :=
  (scanPos amtPat1At cs) <|> (scanPos amtPat2At cs) <|>
  (scanPos amtPat3At cs) <|> (scanPos amtPat4At cs) <|> (amtPat5Match cs)

/-- Numeric value of a digit string. -/
def natOfDigits (cs : List Char) : Nat :=
  cs.foldl (fun n c => 10 * n + (c.toNat - '0'.toNat)) 0

/-- Discard a leading minus sign (the absolute value discards the sign
`parseFloat` would have produced). -/
def dropSign (cs : List Char) : List Char :=
  if cs.head? == some '-' then cs.drop 1 else cs

/-- Numeric value of an unsigned capture of shape `digits(.dd)?`. -/
def ratOfNumChars (cs : List Char) : ℚ :=
  match cs.dropWhile Char.isDigit with
  | '.' :: fr =>
      (natOfDigits (cs.takeWhile Char.isDigit) : ℚ) + (natOfDigits fr : ℚ) / 100
  | _ => (natOfDigits (cs.takeWhile Char.isDigit) : ℚ)

/-- `Math.abs(parseFloat(match[1].replace(/,/g, '')))`: grouping commas
are stripped, the optional sign is discarded by the absolute value, and
the capture shape is `digits(.dd)?`. -/
def ratOfCaptured (cap : List Char) : ℚ :=
  ratOfNumChars (dropSign (cap.filter (fun c => !(c == ','))))

/-- Amount extraction (`organization.js` lines 311-329). -/
def extractAmount (cs : List Char) : Option ℚ :=
  (amountMatch cs).map ratOfCaptured

/-- A calendar date as produced by the modelled host `Date`. -/
structure JDate where
  year : Nat
  month : Nat
  day : Nat
deriving DecidableEq

/-- Gregorian leap year. -/
def isLeap (y : Nat) : Bool := (y % 4 == 0 && y % 100 != 0) || y % 400 == 0

/-- Days in a month. -/
def daysInMonth (y m : Nat) : Nat :=
  if m == 2 then (if isLeap y then 29 else 28)
  else if m == 4 || m == 6 || m == 9 || m == 11 then 30
  else 31

/-- Model of the host `new Date(...)` on the date strings this code
constructs from a year, month and day: the result is a valid date exactly
when the components are calendar-valid (an out-of-range month or day
yields an Invalid Date, i.e. `isNaN(date.getTime())`). -/
def mkValidDate (y m d : Nat) : Option JDate :=
  if 1 ≤ m && m ≤ 12 && 1 ≤ d && d ≤ daysInMonth y m then some ⟨y, m, d⟩
  else none

/-- The month-name alternation `(Jan|Feb|...|Dec)`, in source order. -/
def monthNames : List (List Char) :=
  [['J','a','n'], ['F','e','b'], ['M','a','r'], ['A','p','r'],
   ['M','a','y'], ['J','u','n'], ['J','u','l'], ['A','u','g'],
   ['S','e','p'], ['O','c','t'], ['N','o','v'], ['D','e','c']]

/-- Try the month-name alternation case-insensitively; returns the rest
after the three matched characters. -/
def monthAt (cs : List Char) : Option (List Char) :=
  monthNames.findSome? (fun nm => litCI nm cs)

/-- Month number (1-12) of a component that is a month name. -/
def monthFromName (cs : List Char) : Option Nat :=
  (List.range 12).findSome? (fun i =>
    if (litCI (monthNames.getD i []) cs).isSome then some (i + 1) else none)

/-- Month number of a date-string component: a digit string or a month
name (the code builds `` `${match[3]}-${match[2]}-${match[1]}` `` where
the middle component can be a matched month name). -/
def monthComponent (cs : List Char) : Option Nat :=
  if cs ≠ [] && cs.all Char.isDigit then some (natOfDigits cs)
  else monthFromName cs

/-- The data of one regex match that the date loop consumes:
`match[0]` and the three capture groups. -/
structure DMatch where
  m0 : List Char
  m1 : List Char
  m2 : List Char
  m3 : List Char

/-- `\s+`: at least one whitespace character, greedily; returns
`(consumed, rest)`. -/
def ws1c (cs : List Char) : Option (List Char × List Char) :=
  match cs with
  | c :: r => if isWS c then some (c :: r.takeWhile isWS, r.dropWhile isWS)
              else none
  | [] => none

/-- The `(\d{1,2})\s+(Mon)[a-z]*\s+(\d{4})` tail shared by date patterns
1 and 5, tried at one position. -/
def dayMonYearAt (cs : List Char) : Option DMatch :=
  (pBetween pDigit 1 2 cs).findSome? (fun d =>
    match ws1c d.2 with
    | none => none
    | some (w1, r1) =>
        match monthAt r1 with
        | none => none
        | some r2 =>
            let mtxt := r1.take 3
            let letters := r2.takeWhile isAlpha
            let r3 := r2.dropWhile isAlpha
            match ws1c r3 with
            | none => none
            | some (w2, r4) =>
                match (pCountExact pDigit 4) r4 with
                | [] => none
                | y :: _ =>
                    some { m0 := d.1 ++ w1 ++ mtxt ++ letters ++ w2 ++ y.1
                           m1 := d.1, m2 := mtxt, m3 := y.1 })

/-- Date pattern 1:
`/(\d{1,2})\s+(Jan|...|Dec)[a-z]*\s+(\d{4})/i`. -/
def datePat1At (cs : List Char) : Option DMatch := dayMonYearAt cs

/-- The `,?\s+` piece of date pattern 2: the comma-consuming alternative
is preferred. -/
def commaWs (cs : List Char) : List (List Char × List Char) :=
  (match cs with
   | ',' :: r =>
       match ws1c r with
       | some (w, r') => [(',' :: w, r')]
       | none => []
   | _ => []) ++
  (match ws1c cs with
   | some (w, r') => [(w, r')]
   | none => [])

/-- Date pattern 2:
`/(Jan|...|Dec)[a-z]*\s+(\d{1,2}),?\s+(\d{4})/i`. -/
def datePat2At (cs : List Char) : Option DMatch :=
  match monthAt cs with
  | none => none
  | some r1 =>
      let mtxt := cs.take 3
      let letters := r1.takeWhile isAlpha
      let r2 := r1.dropWhile isAlpha
      match ws1c r2 with
      | none => none
      | some (w1, r3) =>
          (pBetween pDigit 1 2 r3).findSome? (fun d =>
            (commaWs d.2).findSome? (fun cw =>
              match (pCountExact pDigit 4) cw.2 with
              | [] => none
              | y :: _ =>
                  some { m0 := mtxt ++ letters ++ w1 ++ d.1 ++ cw.1 ++ y.1
                         m1 := mtxt, m2 := d.1, m3 := y.1 }))

/-- A `/` or `-` separator. -/
def sepAt (cs : List Char) : Option (Char × List Char) :=
  match cs with
  | c :: r => if c == '/' || c == '-' then some (c, r) else none
  | _ => none

/-- Date pattern 3: `/(\d{1,2})[\/\-](\d{1,2})[\/\-](\d{2,4})/`. -/
def datePat3At (cs : List Char) : Option DMatch :=
  (pBetween pDigit 1 2 cs).findSome? (fun a =>
    match sepAt a.2 with
    | none => none
    | some (s1, r1) =>
        (pBetween pDigit 1 2 r1).findSome? (fun b =>
          match sepAt b.2 with
          | none => none
          | some (s2, r2) =>
              match (pBetween pDigit 2 4 r2).head? with
              | none => none
              | some y =>
                  some { m0 := a.1 ++ [s1] ++ b.1 ++ [s2] ++ y.1
                         m1 := a.1, m2 := b.1, m3 := y.1 }))

/-- Date pattern 4: `/(\d{4})[\/\-](\d{1,2})[\/\-](\d{1,2})/`. -/
def datePat4At (cs : List Char) : Option DMatch :=
  match (pCountExact pDigit 4) cs with
  | [] => none
  | y :: _ =>
      match sepAt y.2 with
      | none => none
      | some (s1, r1) =>
          (pBetween pDigit 1 2 r1).findSome? (fun b =>
            match sepAt b.2 with
            | none => none
            | some (s2, r2) =>
                match (pBetween pDigit 1 2 r2).head? with
                | none => none
                | some d =>
                    some { m0 := y.1 ++ [s1] ++ b.1 ++ [s2] ++ d.1
                           m1 := y.1, m2 := b.1, m3 := d.1 })

/-- Date pattern 5:
`/Date:\s*(\d{1,2})\s+(Jan|...|Dec)[a-z]*\s+(\d{4})/i`. -/
def datePat5At (cs : List Char) : Option DMatch :=
  match litCI ['D','a','t','e',':'] cs with
  | none => none
  | some r =>
      let lit := cs.take 5
      let ws := r.takeWhile isWS
      match dayMonYearAt (r.dropWhile isWS) with
      | none => none
      | some m => some { m with m0 := lit ++ ws ++ m.m0 }

/-- Convert one date-pattern match into a date, exactly as the loop body
does (`organization.js` lines 344-360): the month-name branch when
`match[0]` starts with a letter or contains `Date:`; the year-first
branch when `match[1]` has four characters; otherwise the day-first swap
`` new Date(`${match[3]}-${match[2]}-${match[1]}`) ``. -/
def dateFromMatch (m : DMatch) : Option JDate :=
  let letterStart := match m.m0 with
    | c :: _ => isAlpha c
    | [] => false
  if letterStart || containsCI ['D','a','t','e',':'] m.m0 then
    if (match m.m1 with | c :: _ => isAlpha c | [] => false) then
      match monthFromName m.m1 with
      | none => none
      | some mo => mkValidDate (natOfDigits m.m3) mo (natOfDigits m.m2)
    else
      match monthFromName m.m2 with
      | none => none
      | some mo => mkValidDate (natOfDigits m.m3) mo (natOfDigits m.m1)
  else if m.m1.length == 4 then
    match monthComponent m.m2 with
    | none => none
    | some mo => mkValidDate (natOfDigits m.m1) mo (natOfDigits m.m3)
  else
    match monthComponent m.m2 with
    | none => none
    | some mo => mkValidDate (natOfDigits m.m3) mo (natOfDigits m.m1)

/-- The first match of each date pattern over the whole text, in pattern
order (patterns that do not match are skipped). -/
def dateMatches (cs : List Char) : List DMatch :=
  [scanPos datePat1At cs, scanPos datePat2At cs, scanPos datePat3At cs,
   scanPos datePat4At cs, scanPos datePat5At cs].filterMap id

/-- Date extraction (`organization.js` lines 331-373): the loop takes
the first pattern whose match converts to a valid date; an invalid date
falls through to the next pattern. -/
def extractDate (cs : List Char) : Option JDate :=
  (dateMatches cs).findSome? dateFromMatch

/-- The character class of `/^[\d\$\.,\/\-\s]+$/`: digits, `$`, `.`,
`,`, `/`, `-` and whitespace. -/
def numericLineClass (c : Char) : Bool :=
  c.isDigit || c == '$' || c == '.' || c == ',' || c == '/' || c == '-' || isWS c

/-- `text.split('\n')`: split on every newline, keeping empty
segments. -/
def splitNl : List Char → List (List Char)
  | [] => [[]]
  | c :: t =>
      if c == '\n' then [] :: splitNl t
      else
        match splitNl t with
        | [] => [[c]]
        | l :: ls => (c :: l) :: ls

/-- `String.prototype.trim`: strip whitespace from both ends (restricted
to the ASCII whitespace set, the only one relevant here). -/
def trimWS (cs : List Char) : List Char :=
  ((cs.dropWhile isWS).reverse.dropWhile isWS).reverse

/-- `text.split('\n').filter(line => line.trim().length > 0)`. -/
def descLines (text : String) : List (List Char) :=
  (splitNl text.data).filter (fun l => !(trimWS l).isEmpty)

/-- Description extraction (`organization.js` lines 375-397): the first
non-empty line whose trimmed text is not all digits/punctuation, with
weight `0.2`; otherwise the first non-empty line with reduced weight
`0.1`; `(none, 0)` when every line is blank.  Either description is
truncated to 255 characters. -/
def descPair (text : String) : Option String × ℚ :=
  match (descLines text).find? (fun l => !((trimWS l).all numericLineClass)) with
  | some l => (some (jsSubstr ⟨trimWS l⟩ 255), 2/10)
  | none =>
      match descLines text with
      | [] => (none, 0)
      | l :: _ => (some (jsSubstr ⟨l⟩ 255), 1/10)

/-- The `categoryKeywords` table, in source (insertion) order. -/
def categoryKeywords : List (String × List String) :=
  [("Food & Dining",
    ["restaurant", "food", "coffee", "cafe", "pizza", "burger", "dining",
     "lunch", "dinner", "breakfast", "swiggy", "zomato", "starbucks",
     "mcdonald", "kfc", "domino", "subway"]),
   ("Shopping",
    ["amazon", "flipkart", "myntra", "walmart", "target", "store", "shop",
     "retail", "purchase", "mall", "market", "reliance", "dmart"]),
   ("Transportation",
    ["uber", "ola", "rapido", "lyft", "gas", "fuel", "parking", "transit",
     "taxi", "train", "bus", "metro", "petrol", "diesel"]),
   ("Entertainment",
    ["movie", "theater", "netflix", "hotstar", "prime", "spotify", "game",
     "concert", "ticket", "bookmyshow", "pvr", "inox"]),
   ("Utilities",
    ["electric", "electricity", "water", "internet", "phone", "utility",
     "bill", "airtel", "jio", "bsnl", "vodafone", "mseb", "bescom"]),
   ("Healthcare",
    ["pharmacy", "doctor", "medical", "hospital", "health", "dental",
     "apollo", "fortis", "medplus", "clinic"]),
   ("Transfer",
    ["transfer", "payment", "upi", "neft", "imps", "rtgs", "paytm",
     "phonepe", "gpay", "googlepay", "venmo", "paypal", "zelle",
     "cashapp"])]

/-- Category extraction (`organization.js` lines 399-419): lowercase the
text once, then the first table entry with any keyword substring match
wins. -/
def extractCategory (text : String) : Option String :=
  (categoryKeywords.find? (fun p =>
    p.2.any (fun k => containsSub k.data (text.data.map Char.toLower)))).map
    (fun p => p.1)

/-- The `ParsedTransaction` shape returned by the orchestrator.
`category` stays an untyped `JsValue` because the AI path passes the
model's category through without validation. -/
structure ParsedTransaction where
  amount : Option JSNum
  date : Option JDate
  description : Option String
  category : JsValue
  confidence : ℚ
deriving DecidableEq

/-- Amount extractor applied to a text. -/
def amountRes (text : String) : Option ℚ := extractAmount text.data

/-- Date extractor applied to a text. -/
def dateRes (text : String) : Option JDate := extractDate text.data

/-- Category extractor applied to a text. -/
def catRes (text : String) : Option String := extractCategory text

/-- The accumulated confidence sum: `0.3` for an amount match, `0.3` for
a date match, the description weight, `0.2` for a category match. -/
def regexConfSum (text : String) : ℚ :=
  (if (amountRes text).isSome then (3 : ℚ)/10 else 0)
  + (if (dateRes text).isSome then (3 : ℚ)/10 else 0)
  + (descPair text).2
  + (if (catRes text).isSome then (2 : ℚ)/10 else 0)

/-- `Math.min` on rationals: the smaller argument. -/
def jsMin (a b : ℚ) : ℚ := if Rat.blt b a then b else a

/-- `confidenceFactors`: the number of extractors that matched. -/
def regexFactors (text : String) : Nat :=
  (if (amountRes text).isSome then 1 else 0)
  + (if (dateRes text).isSome then 1 else 0)
  + (if (descPair text).1.isSome then 1 else 0)
  + (if (catRes text).isSome then 1 else 0)

/-- `parseTransactionTextWithRegex` (`organization.js` lines 307-431):
the four extractors composed, with
`finalConfidence = confidenceFactors > 0 ? Math.min(confidence, 1.0) : 0`. -/
def parseTransactionTextWithRegex (text : String) : ParsedTransaction :=
  { amount := (amountRes text).map (fun q => JSNum.fin q)
    date := dateRes text
    description := (descPair text).1
    category := match catRes text with
      | some c => .vstr c
      | none => .vnull
    confidence := if 0 < regexFactors text then jsMin (regexConfSum text) 1 else 0 }

/-- `parseTransactionText` (`organization.js` lines 265-301): when the
adapter reports itself configured, its result is converted (its date
value goes through the host `new Date`, modelled by the `hostDate`
parameter, with Invalid Date mapped to `none`); otherwise the regex
fallback runs.  The adapter is total, so the orchestrator's defensive
`catch` (which would also fall back to the regex parser) is dead code. -/
def parseTransactionText (hostDate : JsValue → Option JDate)
    (configured : Bool) (o : BedrockOutcome) (text : String) :
    ParsedTransaction :=
  if configured then
    let r := extractTransactionWithBedrock o
    { amount := r.amount
      date := if r.date.truthy then hostDate r.date else none
      description := r.description
      category := r.category
      confidence := r.confidence }
  else parseTransactionTextWithRegex text

/-- The nine values of the closed category enumeration (§3 of the
specification and the adapter prompt). -/
def nineCategories : List String :=
  ["Food & Dining", "Shopping", "Transportation", "Entertainment",
   "Utilities", "Healthcare", "Transfer", "Income", "Other"]

/-- Is a category value `null` or one of the nine enumerated strings? -/
def categoryOkB (v : JsValue) : Bool :=
  v == .vnull || nineCategories.any (fun c => v == .vstr c)

/-- Is the description absent or at most 255 characters long? -/
def descLenOkB (p : ParsedTransaction) : Bool :=
  match p.description with
  | none => true
  | some s => decide (s.length ≤ 255)

/-- Is the amount absent or a non-negative number? -/
def amountOkB (p : ParsedTransaction) : Bool :=
  match p.amount with
  | none => true
  | some n => jsnumNonneg n

/-!
Transaction store and cursor pagination (`organization.js` lines
436-499) and the single-transaction route (`routes/transaction` GET
`/:id`).  A `Txn` keeps the fields the queries read; the persistence
engine's answer to `findMany({where, orderBy: {createdAt: 'desc'}})` is
modelled relationally by `isOrderedResult`, because the query names no
secondary sort key and the engine may order ties arbitrarily.
-/

/-- A persisted transaction record, restricted to the fields the read
paths consult. -/
structure Txn where
  id : String
  organizationId : String
  createdAt : Nat
deriving DecidableEq

/-- The contract of
`findMany({where: {organizationId}, orderBy: {createdAt: 'desc'}})`:
the output is some permutation of the organization's records that is
sorted by `createdAt` descending.  Nothing constrains the relative order
of records with equal `createdAt`. -/
def isOrderedResult (db : List Txn) (org : String) (out : List Txn) : Prop :=
  out.Perm (db.filter (fun t => t.organizationId == org))
  ∧ out.Pairwise (fun a b => b.createdAt ≤ a.createdAt)

/-- Prisma cursor positioning plus `skip: 1`: the suffix of the ordered
result starting strictly after the record whose id is the cursor
(everything before the cursor record is dropped, then the cursor record
itself). -/
def cursorSuffix (ordered : List Txn) : Option String → List Txn
  | none => ordered
  | some c => ((ordered.dropWhile (fun t => !(t.id == c))).drop 1)

/-- The record `getTransactions` returns. -/
structure PageResult where
  items : List Txn
  nextCursor : Option String
  hasMore : Bool
deriving DecidableEq

/-- `const limit = params.limit || 20`: zero (and absent, encoded as
zero) falls back to the default of 20. -/
def effLimit (limitParam : Nat) : Nat := if limitParam == 0 then 20 else limitParam

/-- `findMany({take: limit + 1, ...})`: the `limit + 1` records fetched
after the cursor. -/
def fetched (ordered : List Txn) (lp : Nat) (cur : Option String) : List Txn :=
  (cursorSuffix ordered cur).take (effLimit lp + 1)

/-- `const hasMore = transactions.length > limit`. -/
def pageHasMore (ordered : List Txn) (lp : Nat) (cur : Option String) : Bool :=
  decide (effLimit lp < (fetched ordered lp cur).length)

/-- `const items = hasMore ? transactions.slice(0, -1) : transactions`. -/
def pageItems (ordered : List Txn) (lp : Nat) (cur : Option String) : List Txn :=
  if pageHasMore ordered lp cur then (fetched ordered lp cur).dropLast
  else fetched ordered lp cur

/-- The page computation of `getTransactions` on the engine's ordered
result (`organization.js` lines 454-487): fetch `limit + 1` records
after the cursor, report `hasMore` when the extra record exists, drop it
from the page, and emit the last page record's id as `nextCursor`. -/
def paginate (ordered : List Txn) (lp : Nat) (cur : Option String) : PageResult :=
  { items := pageItems ordered lp cur
    nextCursor :=
      if pageHasMore ordered lp cur then ((pageItems ordered lp cur).getLast?).map Txn.id
      else none
    hasMore := pageHasMore ordered lp cur }

/-- `getTransactionById` (`organization.js` lines 492-499):
`findFirst({where: {id, organizationId}})` — lookup by id always
additionally filtered by organization. -/
def getTransactionById (db : List Txn) (id org : String) : Option Txn :=
  db.find? (fun t => t.id == id && t.organizationId == org)

/-- The observable outcomes of `GET /api/transactions/:id`. -/
inductive RouteResp where
  | badRequest
  | forbidden
  | notFound
  | ok (t : Txn)
deriving DecidableEq

/-- The `GET /api/transactions/:id` handler after authentication
(`routes/transaction.ts` lines 1344-1378): a missing (or empty, hence
falsy) `organizationId` query parameter is a 400; a user without
membership of that organization is a 403; a missing record is a 404. -/
def routeGetTransactionById (db : List Txn) (userOrgIds : List String)
    (id : String) (organizationId : Option String) : RouteResp :=
  match organizationId with
  | none => .badRequest
  | some org =>
      if org == "" then .badRequest
      else if userOrgIds.contains org then
        match getTransactionById db id org with
        | none => .notFound
        | some t => .ok t
      else .forbidden

/-- A five-record store for one organization, in creation order. -/
def db5 : List Txn :=
  [⟨"t1", "orgA", 1⟩, ⟨"t2", "orgA", 2⟩, ⟨"t3", "orgA", 3⟩,
   ⟨"t4", "orgA", 4⟩, ⟨"t5", "orgA", 5⟩]

/-- The engine's ordered answer for `db5`: newest created first (unique
here because the timestamps are distinct). -/
def ordered5 : List Txn :=
  [⟨"t5", "orgA", 5⟩, ⟨"t4", "orgA", 4⟩, ⟨"t3", "orgA", 3⟩,
   ⟨"t2", "orgA", 2⟩, ⟨"t1", "orgA", 1⟩]

attribute [local semireducible] Rat.add Rat.mul Rat.inv Rat.sub Rat.ofScientific

set_option maxRecDepth 8000

theorem jsMin_le_right (a b : ℚ) : jsMin a b ≤ b := by
  unfold jsMin
  rcases h : Rat.blt b a with _ | _
  · simp only [h, Bool.false_eq_true, if_false]
    exact h
  · simp only [h, if_true]
    exact le_refl b

theorem le_jsMin {a b c : ℚ} (h1 : c ≤ a) (h2 : c ≤ b) : c ≤ jsMin a b := by
  unfold jsMin
  rcases h : Rat.blt b a with _ | _
  · simpa only [h, Bool.false_eq_true, if_false] using h1
  · simpa only [h, if_true] using h2

theorem jsSubstr_length_le (s : String) (n : Nat) : (jsSubstr s n).length ≤ n := by
  show (s.data.take n).length ≤ n
  rw [List.length_take]
  exact Nat.min_le_left _ _

theorem descPair_shape (text : String) :
    descPair text = (none, 0)
    ∨ (∃ s, (descPair text).1 = some s ∧ s.length ≤ 255
        ∧ ((descPair text).2 = 1/10 ∨ (descPair text).2 = 2/10)) := by
  unfold descPair
  rcases hf : (descLines text).find? (fun l => !((trimWS l).all numericLineClass))
    with _ | l
  · rcases hl : descLines text with _ | ⟨l0, ls⟩
    · exact Or.inl rfl
    · exact Or.inr ⟨_, rfl, jsSubstr_length_le _ _, Or.inl rfl⟩
  · exact Or.inr ⟨_, rfl, jsSubstr_length_le _ _, Or.inr rfl⟩

theorem descPair_snd_nonneg (text : String) : 0 ≤ (descPair text).2 := by
  rcases descPair_shape text with h | ⟨s, _, _, h | h⟩
  · rw [h]
  · rw [h]; norm_num
  · rw [h]; norm_num

theorem regexConfSum_nonneg (text : String) : 0 ≤ regexConfSum text := by
  unfold regexConfSum
  have hd := descPair_snd_nonneg text
  split_ifs <;> linarith

theorem regex_conf_eq (text : String) :
    (parseTransactionTextWithRegex text).confidence
      = if 0 < regexFactors text then jsMin (regexConfSum text) 1 else 0 := rfl

theorem regex_confidence_bounds (text : String) :
    0 ≤ (parseTransactionTextWithRegex text).confidence
    ∧ (parseTransactionTextWithRegex text).confidence ≤ 1 := by
  rw [regex_conf_eq]
  by_cases h : 0 < regexFactors text
  · rw [if_pos h]
    exact ⟨le_jsMin (regexConfSum_nonneg text) (by norm_num), jsMin_le_right _ _⟩
  · rw [if_neg h]
    norm_num

theorem sanitizeConfidence_bounds (v : JsValue) :
    0 ≤ sanitizeConfidence v ∧ sanitizeConfidence v ≤ 1 := by
  have h12 : (0 : ℚ) ≤ 1/2 ∧ (1 : ℚ)/2 ≤ 1 := by norm_num
  rcases v with _ | _ | b | n | s | _
  · exact h12
  · exact h12
  · exact h12
  · rcases n with _ | _ | _ | q
    · exact h12
    · exact h12
    · exact h12
    · show 0 ≤ (if 0 ≤ q ∧ q ≤ 1 then q else 1/2)
          ∧ (if 0 ≤ q ∧ q ≤ 1 then q else 1/2) ≤ 1
      split_ifs with h
      · exact h
      · exact h12
  · exact h12
  · exact h12

theorem bedrock_confidence_bounds (o : BedrockOutcome) :
    0 ≤ (extractTransactionWithBedrock o).confidence
    ∧ (extractTransactionWithBedrock o).confidence ≤ 1 := by
  have h01 : (0 : ℚ) ≤ 0 ∧ (0 : ℚ) ≤ 1 := by norm_num
  rcases o with msg | _ | e
  · exact h01
  · exact h01
  · unfold extractTransactionWithBedrock bedrockBody sanitizeExtracted
    rcases hd : sanitizeDescription e.description with msg | d
    · simp only [hd]
      exact h01
    · simp only [hd]
      exact sanitizeConfidence_bounds e.confidence

theorem ratOfNumChars_nonneg (cs : List Char) : 0 ≤ ratOfNumChars cs := by
  unfold ratOfNumChars
  split
  · positivity
  · positivity

theorem ratOfCaptured_nonneg (cap : List Char) : 0 ≤ ratOfCaptured cap :=
  ratOfNumChars_nonneg _

theorem regex_category_ok (text : String) :
    categoryOkB (parseTransactionTextWithRegex text).category = true := by
  rw [show (parseTransactionTextWithRegex text).category
      = (match catRes text with
         | some c => JsValue.vstr c
         | none => JsValue.vnull) from rfl]
  unfold catRes extractCategory
  rcases hf : categoryKeywords.find? (fun p =>
      p.2.any (fun k => containsSub k.data (text.data.map Char.toLower)))
    with _ | p
  · rw [hf]
    rfl
  · rw [hf]
    show categoryOkB (JsValue.vstr p.1) = true
    have hp : p ∈ categoryKeywords := List.mem_of_find?_eq_some hf
    fin_cases hp <;> rfl

theorem sanitizeDescription_shape (v : JsValue) (d : Option String)
    (h : sanitizeDescription v = .ok d) :
    d = none ∨ ∃ s, d = some (jsSubstr s 255) := by
  rcases v with _ | _ | b | n | s | _
  · exact Or.inl (Except.ok.inj h).symm
  · exact Or.inl (Except.ok.inj h).symm
  · rcases b with _ | _
    · exact Or.inl (Except.ok.inj h).symm
    · exact Except.noConfusion h
  · rcases n with _ | _ | _ | q
    · exact Or.inl (Except.ok.inj h).symm
    · exact Except.noConfusion h
    · exact Except.noConfusion h
    · by_cases hq : q = 0
      · subst hq
        exact Or.inl (Except.ok.inj h).symm
      · rw [show sanitizeDescription (.vnum (.fin q))
            = if q != 0
              then Except.error "extracted.description.substring is not a function"
              else Except.ok none from rfl] at h
        rw [if_pos (by simpa using hq)] at h
        exact Except.noConfusion h
  · by_cases hs : s = ""
    · subst hs
      exact Or.inl (Except.ok.inj h).symm
    · rw [show sanitizeDescription (.vstr s)
          = if s != "" then Except.ok (some (jsSubstr s 255))
            else Except.ok none from rfl] at h
      rw [if_pos (by simpa using hs)] at h
      exact Or.inr ⟨s, (Except.ok.inj h).symm⟩
  · exact Except.noConfusion h

theorem bedrock_desc_ok (o : BedrockOutcome) (s : String)
    (h : (extractTransactionWithBedrock o).description = some s) :
    s.length ≤ 255 := by
  rcases o with msg | _ | e
  · exact Option.noConfusion h
  · exact Option.noConfusion h
  · rcases hd : sanitizeDescription e.description with msg | d
    · have he : extractTransactionWithBedrock (.respondsParsed e)
          = degradedResult msg := by
        simp only [extractTransactionWithBedrock, bedrockBody, sanitizeExtracted, hd]
      rw [he] at h
      exact Option.noConfusion h
    · have he : (extractTransactionWithBedrock (.respondsParsed e)).description
          = d := by
        simp only [extractTransactionWithBedrock, bedrockBody, sanitizeExtracted, hd]
      rw [he] at h
      rcases sanitizeDescription_shape _ _ hd with h1 | ⟨s', h2⟩
      · rw [h1] at h
        exact Option.noConfusion h
      · rw [h2] at h
        rw [← Option.some.inj h]
        exact jsSubstr_length_le _ _

theorem sanitizeAmount_nonneg (v : JsValue) (n : JSNum)
    (h : sanitizeAmount v = some n) : jsnumNonneg n = true := by
  rcases v with _ | _ | b | m | s | _
  · exact Option.noConfusion h
  · exact Option.noConfusion h
  · exact Option.noConfusion h
  · rcases m with _ | _ | _ | q
    · exact Option.noConfusion h
    · rw [← Option.some.inj h]
      rfl
    · rw [← Option.some.inj h]
      rfl
    · rw [← Option.some.inj h]
      simp [jsnumNonneg, jsAbs, abs_nonneg]
  · exact Option.noConfusion h
  · exact Option.noConfusion h

theorem paginate_spec (ordered : List Txn) (lp : Nat) (cur : Option String) :
    (paginate ordered lp cur).items = (cursorSuffix ordered cur).take (effLimit lp)
    ∧ (paginate ordered lp cur).hasMore
        = decide (effLimit lp + 1 ≤ (cursorSuffix ordered cur).length)
    ∧ (paginate ordered lp cur).nextCursor
        = (if effLimit lp + 1 ≤ (cursorSuffix ordered cur).length
           then (((cursorSuffix ordered cur).take (effLimit lp)).getLast?).map Txn.id
           else none) := by
  have hlen : (fetched ordered lp cur).length
      = min (effLimit lp + 1) (cursorSuffix ordered cur).length := by
    unfold fetched
    exact List.length_take _ _
  have hmore : (paginate ordered lp cur).hasMore
      = decide (effLimit lp + 1 ≤ (cursorSuffix ordered cur).length) := by
    show pageHasMore ordered lp cur = _
    unfold pageHasMore
    rw [decide_eq_decide, hlen]
    omega
  by_cases hm : effLimit lp + 1 ≤ (cursorSuffix ordered cur).length
  · have hb : pageHasMore ordered lp cur = true := by
      rw [show (paginate ordered lp cur).hasMore = pageHasMore ordered lp cur from rfl]
        at hmore
      rw [hmore, decide_eq_true_iff]
      exact hm
    have hitems : pageItems ordered lp cur
        = (cursorSuffix ordered cur).take (effLimit lp) := by
      unfold pageItems
      rw [hb, if_pos rfl, List.dropLast_eq_take]
      unfold fetched
      rw [List.take_take]
      congr 1
      rw [show (fetched ordered lp cur) = (cursorSuffix ordered cur).take (effLimit lp + 1)
          from rfl] at hlen
      omega
    refine ⟨hitems, hmore, ?_⟩
    show (if pageHasMore ordered lp cur
          then ((pageItems ordered lp cur).getLast?).map Txn.id else none) = _
    rw [hb, if_pos rfl, if_pos hm, hitems]
  · have hb : pageHasMore ordered lp cur = false := by
      rw [show (paginate ordered lp cur).hasMore = pageHasMore ordered lp cur from rfl]
        at hmore
      rw [hmore, decide_eq_false_iff_not]
      exact hm
    have hitems : pageItems ordered lp cur
        = (cursorSuffix ordered cur).take (effLimit lp) := by
      unfold pageItems
      rw [hb, if_neg (by simp)]
      unfold fetched
      rw [List.take_eq_take]
      omega
    refine ⟨hitems, hmore, ?_⟩
    show (if pageHasMore ordered lp cur
          then ((pageItems ordered lp cur).getLast?).map Txn.id else none) = _
    rw [hb, if_neg (by simp), if_neg hm]

theorem sorted_perm_unique :
    ∀ (l1 l2 : List Txn), l1.Perm l2
      → l1.Pairwise (fun a b => b.createdAt ≤ a.createdAt)
      → l2.Pairwise (fun a b => b.createdAt ≤ a.createdAt)
      → (l1.map Txn.createdAt).Nodup
      → l1 = l2 := by
  intro l1
  induction l1 with
  | nil =>
      intro l2 hp _ _ _
      exact (List.Perm.eq_nil hp.symm).symm
  | cons a t ih =>
      intro l2 hp h1 h2 hnd
      rw [List.map_cons] at hnd
      rcases l2 with _ | ⟨b, t2⟩
      · exact absurd hp.length_eq (by simp)
      · have hab : a = b := by
          by_contra hne
          have ha2 : a ∈ b :: t2 := hp.mem_iff.mp (List.mem_cons_self a t)
          have hat2 : a ∈ t2 := by
            rcases List.mem_cons.mp ha2 with h | h
            · exact absurd h hne
            · exact h
          have hba : b ∈ a :: t := hp.mem_iff.mpr (List.mem_cons_self b t2)
          have hbt : b ∈ t := by
            rcases List.mem_cons.mp hba with h | h
            · exact absurd h.symm hne
            · exact h
          have hle1 : b.createdAt ≤ a.createdAt := (List.pairwise_cons.mp h1).1 b hbt
          have hle2 : a.createdAt ≤ b.createdAt := (List.pairwise_cons.mp h2).1 a hat2
          have hmem : a.createdAt ∈ t.map Txn.createdAt := by
            rw [le_antisymm hle2 hle1]
            exact List.mem_map_of_mem Txn.createdAt hbt
          exact (List.nodup_cons.mp hnd).1 hmem
        subst hab
        have hpt : t.Perm t2 := hp.cons_inv
        rw [ih t2 hpt (List.pairwise_cons.mp h1).2 (List.pairwise_cons.mp h2).2
          (List.nodup_cons.mp hnd).2]

theorem bedrock_amount_ok (o : BedrockOutcome) (n : JSNum)
    (h : (extractTransactionWithBedrock o).amount = some n) :
    jsnumNonneg n = true := by
  rcases o with msg | _ | e
  · exact Option.noConfusion h
  · exact Option.noConfusion h
  · rcases hd : sanitizeDescription e.description with msg | d
    · have he : extractTransactionWithBedrock (.respondsParsed e)
          = degradedResult msg := by
        simp only [extractTransactionWithBedrock, bedrockBody, sanitizeExtracted, hd]
      rw [he] at h
      exact Option.noConfusion h
    · have he : (extractTransactionWithBedrock (.respondsParsed e)).amount
          = sanitizeAmount e.amount := by
        simp only [extractTransactionWithBedrock, bedrockBody, sanitizeExtracted, hd]
      rw [he] at h
      exact sanitizeAmount_nonneg _ _ h

theorem regex_descLenOk (text : String) :
    descLenOkB (parseTransactionTextWithRegex text) = true := by
  unfold descLenOkB
  rw [show (parseTransactionTextWithRegex text).description = (descPair text).1 from rfl]
  rcases descPair_shape text with h0 | ⟨s', hs', hlen, _⟩
  · rw [h0]
  · rw [hs']
    show decide (s'.length ≤ 255) = true
    simpa using hlen

theorem regex_amountOk (text : String) :
    amountOkB (parseTransactionTextWithRegex text) = true := by
  unfold amountOkB
  rw [show (parseTransactionTextWithRegex text).amount
      = (amountRes text).map (fun q => JSNum.fin q) from rfl]
  rcases hm : amountMatch text.data with _ | cap
  · rw [show amountRes text = (amountMatch text.data).map ratOfCaptured from rfl, hm]
    rfl
  · rw [show amountRes text = (amountMatch text.data).map ratOfCaptured from rfl, hm]
    show jsnumNonneg (JSNum.fin (ratOfCaptured cap)) = true
    simpa [jsnumNonneg] using ratOfCaptured_nonneg cap

/-- C1: for every input text and every response or failure of the
external model service, the `confidence` of the `ParsedTransaction`
returned by `parseTransactionText` is a number in the closed interval
`[0, 1]` — and, the field being total, never null — on both the AI path
(after sanitization, including the `0.5` default for an out-of-contract
model confidence) and the regex fallback path (sum of weights clamped to
`1.0`, or exactly `0`). -/
theorem c1_confidence_always_in_unit_interval
    (hostDate : JsValue → Option JDate) (configured : Bool)
    (o : BedrockOutcome) (text : String) :
    0 ≤ (parseTransactionText hostDate configured o text).confidence
    ∧ (parseTransactionText hostDate configured o text).confidence ≤ 1 := by
  rcases configured with _ | _
  · exact regex_confidence_bounds text
  · exact bedrock_confidence_bounds o

/-- C2: for every behaviour of the external Bedrock service, the
adapter's `try` body either succeeds or throws (`bedrockBody`), a
service-invocation throw and an unextractable-JSON response both being
throws; and whenever it throws, `extractTransactionWithBedrock` (a total
function — it never propagates an exception to its caller) returns the
degraded result: `amount`, `date`, `description`, `category` all null,
`confidence` exactly `0`, and `reasoning` a diagnostic string describing
the failure. -/
theorem c2_adapter_failure_degraded :
    (∀ msg, bedrockBody (.throws msg) = .error msg)
    ∧ bedrockBody .respondsUnparsable
        = .error "Could not extract JSON from response"
    ∧ ∀ (o : BedrockOutcome) (msg : String), bedrockBody o = .error msg →
        extractTransactionWithBedrock o
          = { amount := none, date := .vnull, description := none,
              category := .vnull, confidence := 0,
              reasoning := .vstr ("Extraction failed: " ++ msg) } := by
  refine ⟨fun msg => rfl, rfl, fun o msg h => ?_⟩
  unfold extractTransactionWithBedrock
  rw [h]
  rfl

/-- Witness for C2 at a concrete failing invocation. -/
theorem c2_adapter_failure_degraded_witness :
    bedrockBody (.throws "connect ETIMEDOUT") = .error "connect ETIMEDOUT"
    ∧ extractTransactionWithBedrock (.throws "connect ETIMEDOUT")
        = { amount := none, date := .vnull, description := none,
            category := .vnull, confidence := 0,
            reasoning := .vstr ("Extraction failed: " ++ "connect ETIMEDOUT") } :=
  ⟨rfl, c2_adapter_failure_degraded.2.2 (.throws "connect ETIMEDOUT")
    "connect ETIMEDOUT" rfl⟩

/-- C3 counterexample: on the AI path the model's `category` is passed
through without enum validation, so a configured orchestrator can return
the freeform category "Groceries", which is not one of the nine
enumerated values. -/
theorem c3_counterexample :
    (parseTransactionText (fun _ => none) true
      (.respondsParsed
        { amount := .vnum (.fin 500), date := .vstr "2024-12-15",
          description := .vstr "Grocery store", category := .vstr "Groceries",
          confidence := .vnum (.fin (9/10)),
          reasoning := .vstr "grocery purchase" })
      "Grocery store 500").category = .vstr "Groceries"
    ∧ categoryOkB (.vstr "Groceries") = false := by
  constructor
  · rfl
  · rfl

/-- C3 amended: the output of `parseTransactionText` satisfies the §3
invariants that the code actually enforces on both paths — `description`
at most 255 characters and `amount` non-negative when present — while
the category-closure invariant holds whenever the regex fallback path
produced the result; the AI path passes the model's category through
unvalidated. -/
theorem c3_invariants_amended (hostDate : JsValue → Option JDate)
    (configured : Bool) (o : BedrockOutcome) (text : String) :
    (configured = false →
      categoryOkB (parseTransactionText hostDate configured o text).category = true)
    ∧ descLenOkB (parseTransactionText hostDate configured o text) = true
    ∧ amountOkB (parseTransactionText hostDate configured o text) = true := by
  rcases configured with _ | _
  · exact ⟨fun _ => regex_category_ok text, regex_descLenOk text, regex_amountOk text⟩
  · refine ⟨fun h => Bool.noConfusion h, ?_, ?_⟩
    · show descLenOkB
        { amount := (extractTransactionWithBedrock o).amount,
          date := if (extractTransactionWithBedrock o).date.truthy
                  then hostDate (extractTransactionWithBedrock o).date else none,
          description := (extractTransactionWithBedrock o).description,
          category := (extractTransactionWithBedrock o).category,
          confidence := (extractTransactionWithBedrock o).confidence } = true
      unfold descLenOkB
      rcases hds : (extractTransactionWithBedrock o).description with _ | s
      · rfl
      · show decide (s.length ≤ 255) = true
        simpa using bedrock_desc_ok o s hds
    · show amountOkB
        { amount := (extractTransactionWithBedrock o).amount,
          date := if (extractTransactionWithBedrock o).date.truthy
                  then hostDate (extractTransactionWithBedrock o).date else none,
          description := (extractTransactionWithBedrock o).description,
          category := (extractTransactionWithBedrock o).category,
          confidence := (extractTransactionWithBedrock o).confidence } = true
      unfold amountOkB
      rcases hn : (extractTransactionWithBedrock o).amount with _ | n
      · rfl
      · show jsnumNonneg n = true
        exact bedrock_amount_ok o n hn

/-- Witness for C3's amended theorem on the fallback path at a concrete
input. -/
theorem c3_invariants_amended_witness :
    categoryOkB (parseTransactionText (fun _ => none) false (.throws "x")
        "Uber ride 300").category = true
    ∧ descLenOkB (parseTransactionText (fun _ => none) false (.throws "x")
        "Uber ride 300") = true
    ∧ amountOkB (parseTransactionText (fun _ => none) false (.throws "x")
        "Uber ride 300") = true :=
  ⟨(c3_invariants_amended (fun _ => none) false (.throws "x") "Uber ride 300").1 rfl,
   (c3_invariants_amended (fun _ => none) false (.throws "x") "Uber ride 300").2.1,
   (c3_invariants_amended (fun _ => none) false (.throws "x") "Uber ride 300").2.2⟩

/-- C4 counterexample: the input `"zzz qqq"` is recognized by the
description extractor (it is a non-blank line with alphabetic content),
so the fallback parser returns confidence `0.2`, not `0`. -/
theorem c4_counterexample :
    (parseTransactionTextWithRegex "zzz qqq").confidence = 1/5
    ∧ ¬ (parseTransactionTextWithRegex "zzz qqq").confidence = 0 := by
  decide

/-- C4 amended: when none of the four field extractors matches anything
— which requires the input to have no non-blank line at all, since any
non-blank line is taken as a description — the fallback parser returns
confidence exactly `0`. -/
theorem c4_zero_confidence_amended (text : String)
    (ha : amountRes text = none) (hd : dateRes text = none)
    (hdesc : (descPair text).1 = none) (hc : catRes text = none) :
    (parseTransactionTextWithRegex text).confidence = 0 := by
  rw [regex_conf_eq]
  have hf : regexFactors text = 0 := by
    unfold regexFactors
    rw [ha, hd, hdesc, hc]
    rfl
  rw [hf]
  norm_num

/-- Witness for C4's amended theorem at the empty input. -/
theorem c4_zero_confidence_amended_witness :
    (parseTransactionTextWithRegex "").confidence = 0 :=
  c4_zero_confidence_amended "" rfl rfl rfl rfl

/-- C5: evaluation of the fallback parser at the specification's example
input `"Starbucks Coffee 12/15/2024 ₹420.00"`.  The amount regex's
leading group `\d{1,2}` greedily captures only `"42"` out of `"420.00"`,
the date `12/15/2024` is interpreted day-first and is therefore invalid
(month 15), and the confidence is `0.7`, not greater than `0.8`. -/
theorem c5_regex_actual_result :
    parseTransactionTextWithRegex "Starbucks Coffee 12/15/2024 ₹420.00"
      = { amount := some (.fin 42), date := none,
          description := some "Starbucks Coffee 12/15/2024 ₹420.00",
          category := .vstr "Food & Dining", confidence := 7/10 }
    ∧ (parseTransactionTextWithRegex "Starbucks Coffee 12/15/2024 ₹420.00").confidence
        < 8/10 := by
  decide

/-- C6: evaluation of the fallback parser at the specification's example
input `"Amazon Purchase Rs. 1,500.50 dated 15-12-2024"`.  The amount
pattern matches at the `.` of `"Rs."` and its group greedily captures
`"1,50"` from `"1,500.50"`, yielding `150`, not `1500.50`. -/
theorem c6_regex_actual_result :
    parseTransactionTextWithRegex "Amazon Purchase Rs. 1,500.50 dated 15-12-2024"
      = { amount := some (.fin 150), date := some ⟨2024, 12, 15⟩,
          description := some "Amazon Purchase Rs. 1,500.50 dated 15-12-2024",
          category := .vstr "Shopping", confidence := 1 }
    ∧ (parseTransactionTextWithRegex
        "Amazon Purchase Rs. 1,500.50 dated 15-12-2024").amount
        ≠ some (.fin (3001/2)) := by
  decide

/-- C7: `getTransactions` fetches `limit + 1` records starting strictly
after the cursor record; the returned page is the first `limit` of them,
`hasMore` holds exactly when the extra record existed, and `nextCursor`
is the last page record's id when `hasMore` and null otherwise.
Consequently, for five stored transactions in one organization and
`limit = 2`, three consecutive fetches (no cursor, then each returned
`nextCursor`) yield pages of sizes 2, 2, 1 with `hasMore` true, true,
false, and the concatenation of the three pages is exactly the full set
newest-created first, with no duplicate and no omitted identifier. -/
theorem c7_cursor_pagination :
    (∀ (ordered : List Txn) (lp : Nat) (cur : Option String),
        (paginate ordered lp cur).items
            = (cursorSuffix ordered cur).take (effLimit lp)
        ∧ (paginate ordered lp cur).hasMore
            = decide (effLimit lp + 1 ≤ (cursorSuffix ordered cur).length)
        ∧ (paginate ordered lp cur).nextCursor
            = (if effLimit lp + 1 ≤ (cursorSuffix ordered cur).length
               then (((cursorSuffix ordered cur).take (effLimit lp)).getLast?).map
                 Txn.id
               else none))
    ∧ (isOrderedResult db5 "orgA" ordered5
        ∧ (paginate ordered5 2 none).items.length = 2
        ∧ (paginate ordered5 2 none).hasMore = true
        ∧ (paginate ordered5 2 (paginate ordered5 2 none).nextCursor).items.length = 2
        ∧ (paginate ordered5 2 (paginate ordered5 2 none).nextCursor).hasMore = true
        ∧ (paginate ordered5 2
            (paginate ordered5 2
              (paginate ordered5 2 none).nextCursor).nextCursor).items.length = 1
        ∧ (paginate ordered5 2
            (paginate ordered5 2
              (paginate ordered5 2 none).nextCursor).nextCursor).hasMore = false
        ∧ (paginate ordered5 2 none).items
            ++ (paginate ordered5 2 (paginate ordered5 2 none).nextCursor).items
            ++ (paginate ordered5 2
                 (paginate ordered5 2
                   (paginate ordered5 2 none).nextCursor).nextCursor).items
            = ordered5
        ∧ (ordered5.map Txn.id).Nodup) := by
  refine ⟨paginate_spec, ⟨?_, ?_⟩⟩
  · constructor <;> decide
  · decide

/-- C8: a transaction looked up with another organization's id is
indistinguishable from a missing record — `getTransactionById` filters by
both id and organization, so a cross-tenant lookup returns null exactly
like a non-existent id does, and the route answers 404 (not-found rather
than forbidden) even for a caller with access to the queried
organization. -/
theorem c8_tenant_isolation (db : List Txn) (t : Txn) (org : String)
    (hmem : t ∈ db)
    (huniq : ∀ u ∈ db, u.id = t.id → u.organizationId = t.organizationId)
    (hne : org ≠ t.organizationId) (hz : org ≠ "") :
    getTransactionById db t.id org = none
    ∧ (∀ fresh, (∀ u ∈ db, u.id ≠ fresh) → getTransactionById db fresh org = none)
    ∧ (∀ userOrgs : List String, userOrgs.contains org = true →
        routeGetTransactionById db userOrgs t.id (some org) = .notFound) := by
  have h1 : getTransactionById db t.id org = none := by
    unfold getTransactionById
    rw [List.find?_eq_none]
    intro u hu
    simp only [Bool.and_eq_true, beq_iff_eq, not_and]
    intro hid horg
    rw [huniq u hu hid] at horg
    exact hne horg.symm
  refine ⟨h1, ?_, ?_⟩
  · intro fresh hf
    unfold getTransactionById
    rw [List.find?_eq_none]
    intro u hu
    simp only [Bool.and_eq_true, beq_iff_eq, not_and]
    intro hid
    exact absurd hid (hf u hu)
  · intro us hus
    show (if org == "" then RouteResp.badRequest
          else if us.contains org then
            match getTransactionById db t.id org with
            | none => RouteResp.notFound
            | some t => RouteResp.ok t
          else RouteResp.forbidden) = RouteResp.notFound
    rw [if_neg (by simpa using hz), if_pos hus, h1]

/-- Witness for C8 at a concrete one-record store. -/
theorem c8_tenant_isolation_witness :
    getTransactionById [⟨"t1", "orgA", 1⟩] "t1" "orgB" = none
    ∧ getTransactionById [⟨"t1", "orgA", 1⟩] "missing" "orgB" = none
    ∧ routeGetTransactionById [⟨"t1", "orgA", 1⟩] ["orgB"] "t1" (some "orgB")
        = .notFound := by
  have h := c8_tenant_isolation [⟨"t1", "orgA", 1⟩] ⟨"t1", "orgA", 1⟩ "orgB"
    (by decide) (by decide) (by decide) (by decide)
  exact ⟨h.1, h.2.1 "missing" (by decide), h.2.2 ["orgB"] (by decide)⟩

/-- C9 counterexample: the query orders only by `createdAt` descending,
with no secondary key, so for two records sharing a timestamp both
orders satisfy the query's ordering contract — the tie order is not
determined by the record identifiers. -/
theorem c9_counterexample :
    isOrderedResult [⟨"a", "orgA", 5⟩, ⟨"b", "orgA", 5⟩] "orgA"
      [⟨"a", "orgA", 5⟩, ⟨"b", "orgA", 5⟩]
    ∧ isOrderedResult [⟨"a", "orgA", 5⟩, ⟨"b", "orgA", 5⟩] "orgA"
      [⟨"b", "orgA", 5⟩, ⟨"a", "orgA", 5⟩]
    ∧ [(⟨"a", "orgA", 5⟩ : Txn), ⟨"b", "orgA", 5⟩]
      ≠ [⟨"b", "orgA", 5⟩, ⟨"a", "orgA", 5⟩] := by
  refine ⟨⟨?_, ?_⟩, ⟨?_, ?_⟩, ?_⟩ <;> decide

/-- C9 amended: the list is ordered strictly by creation time descending
(newest first); the query specifies no secondary sort key, so the order
is uniquely determined — and pagination deterministic — exactly when the
organization's records have pairwise distinct `createdAt` values. -/
theorem c9_order_amended (db : List Txn) (org : String) (out1 out2 : List Txn)
    (h1 : isOrderedResult db org out1) (h2 : isOrderedResult db org out2)
    (hnd : ((db.filter (fun t => t.organizationId == org)).map Txn.createdAt).Nodup) :
    out1 = out2 :=
  sorted_perm_unique out1 out2 (h1.1.trans h2.1.symm) h1.2 h2.2
    ((h1.1.map Txn.createdAt).nodup_iff.mpr hnd)

/-- Witness for C9's amended theorem: with distinct timestamps the
reversed creation-order list is the unique ordered result. -/
theorem c9_order_amended_witness : db5.reverse = ordered5 :=
  c9_order_amended db5 "orgA" db5.reverse ordered5
    ⟨by decide, by decide⟩ ⟨by decide, by decide⟩ (by decide)

/-- C10: for every input text containing at least one line with a
non-whitespace character, the fallback parser returns a non-null
description of at most 255 characters and a confidence of at least `0.1`
(every non-blank input earns at least the reduced description weight),
so a confidence of exactly `0` is produced only for empty or
whitespace-only input. -/
theorem c10_nonblank_input_description (text : String)
    (h : ∃ l ∈ splitNl text.data, trimWS l ≠ []) :
    (parseTransactionTextWithRegex text).description.isSome = true
    ∧ descLenOkB (parseTransactionTextWithRegex text) = true
    ∧ 1/10 ≤ (parseTransactionTextWithRegex text).confidence := by
  obtain ⟨l, hl, hlt⟩ := h
  have hne : descLines text ≠ [] := by
    have hmem : l ∈ descLines text := by
      unfold descLines
      rw [List.mem_filter]
      exact ⟨hl, by simpa using hlt⟩
    exact List.ne_nil_of_mem hmem
  have hdw : (descPair text).1.isSome = true ∧ 1/10 ≤ (descPair text).2 := by
    unfold descPair
    rcases hf : (descLines text).find? (fun l => !((trimWS l).all numericLineClass))
      with _ | l'
    · rcases hls : descLines text with _ | ⟨l0, ls⟩
      · exact absurd hls hne
      · refine ⟨rfl, ?_⟩
        show (1 : ℚ)/10 ≤ 1/10
        norm_num
    · refine ⟨rfl, ?_⟩
      show (1 : ℚ)/10 ≤ 2/10
      norm_num
  have hfpos : 0 < regexFactors text := by
    unfold regexFactors
    rw [hdw.1, if_pos rfl]
    omega
  refine ⟨hdw.1, regex_descLenOk text, ?_⟩
  rw [regex_conf_eq, if_pos hfpos]
  have hS : 1/10 ≤ regexConfSum text := by
    unfold regexConfSum
    have h2 := hdw.2
    have ha : (0 : ℚ) ≤ if (amountRes text).isSome then (3 : ℚ)/10 else 0 := by
      split_ifs <;> norm_num
    have hb : (0 : ℚ) ≤ if (dateRes text).isSome then (3 : ℚ)/10 else 0 := by
      split_ifs <;> norm_num
    have hc : (0 : ℚ) ≤ if (catRes text).isSome then (2 : ℚ)/10 else 0 := by
      split_ifs <;> norm_num
    linarith
  exact le_jsMin hS (by norm_num)

/-- Witness for C10 at a concrete non-blank input. -/
theorem c10_nonblank_input_description_witness :
    (parseTransactionTextWithRegex "hello").description.isSome = true
    ∧ descLenOkB (parseTransactionTextWithRegex "hello") = true
    ∧ 1/10 ≤ (parseTransactionTextWithRegex "hello").confidence :=
  c10_nonblank_input_description "hello" ⟨"hello".data, by decide, by decide⟩
